import Mathlib

/-!
Verification of the swarm coordination engine
(`src/ai-models/swarm-intelligence/swarm_coordinator.py`).

The engine's data model and operations are shallowly embedded below.
Real-valued Python/NumPy arithmetic is modelled over `ℝ` (geometry:
norms, trigonometry) and over `ℚ` where the source only uses field
operations (the consensus protocol), so that the consensus runs can be
evaluated by the kernel.  Python `dict`s are modelled as association
lists in insertion order, matching `dict` iteration semantics; a
`dict[k] = v` assignment replaces the first binding in place or appends.
Operations that can raise in Python are embedded with `Except`.
-/

open Classical

/-- 2-D vector, as produced by `np.array([x, y])`. -/
abbrev Vec : Type := ℝ × ℝ

/-- Euclidean norm of a 2-D vector (`np.linalg.norm`). -/
noncomputable def norm2 (v : Vec) : ℝ := Real.sqrt (v.1 ^ 2 + v.2 ^ 2)

/-- The `Agent` dataclass.  The `capabilities : Dict[str, Any]` field is
omitted: it is never read by any of the embedded operations. -/
structure AgentR where
  id : String
  position : Vec
  velocity : Vec
  heading : ℝ
  role : String
  status : String
  communication_range : ℝ
  max_speed : ℝ
  energy : ℝ
  equipment : List String

/-- The `Mission` dataclass.  The `deadline : datetime` field is omitted:
it is advisory only and never read by the embedded operations. -/
structure MissionR where
  id : String
  objective : String
  target_positions : List Vec
  priority : ℤ
  formation_type : String
  required_agents : ℕ
  risk_level : String

/-- The `coordination_params` dictionary of `SwarmCoordinator.__init__`. -/
structure CoordinationParams where
  max_communication_range : ℝ
  collision_avoidance_distance : ℝ
  formation_tolerance : ℝ
  update_frequency : ℝ
  consensus_threshold : ℝ

/-- Default coordination parameters from `SwarmCoordinator.__init__`. -/
noncomputable def defaultParams : CoordinationParams :=
  { max_communication_range := 100
    collision_avoidance_distance := 5
    formation_tolerance := 2
    update_frequency := 10
    consensus_threshold := 0.7 }

/-- Association-list model of the `self.agents` dict: first binding wins. -/
def lookupA : List (String × AgentR) → String → Option AgentR
  | [], _ => none
  | (k, a) :: t, i => if k = i then some a else lookupA t i

/-- Python `dict` assignment `d[k] = a`: replace the binding in place if the
key is present, otherwise append it. -/
def updateA : List (String × AgentR) → String → AgentR → List (String × AgentR)
  | [], k, a => [(k, a)]
  | (k', b) :: t, k, a => if k' = k then (k, a) :: t else (k', b) :: updateA t k a

/-- Python `del d[k]`: drop the binding for `k`. -/
def removeA (l : List (String × AgentR)) (k : String) : List (String × AgentR) :=
  l.filter (fun p => p.1 ≠ k)

/-- State owned by `SwarmCoordinator`: the agent registry and the
communication graph (node list plus undirected edge list). -/
structure SwarmState where
  agents : List (String × AgentR)
  graphNodes : List String
  graphEdges : List (String × String)

/-- Fresh coordinator state. -/
def emptySwarm : SwarmState := { agents := [], graphNodes := [], graphEdges := [] }

/-- `SwarmCoordinator.add_agent`: stores the agent under its id (a plain
dict assignment) and adds a graph node (`nx.add_node` is a no-op on an
existing node). -/
def add_agent (s : SwarmState) (a : AgentR) : SwarmState :=
  { s with
    agents := updateA s.agents a.id a
    graphNodes := if a.id ∈ s.graphNodes then s.graphNodes else s.graphNodes ++ [a.id] }

/-- `SwarmCoordinator.remove_agent`: if the id is registered, delete it from
the registry and remove its graph node together with incident edges;
otherwise do nothing. -/
def remove_agent (s : SwarmState) (aid : String) : SwarmState :=
  if (lookupA s.agents aid).isSome then
    { agents := removeA s.agents aid
      graphNodes := s.graphNodes.filter (fun n => n ≠ aid)
      graphEdges := s.graphEdges.filter (fun e => e.1 ≠ aid ∧ e.2 ≠ aid) }
  else s

/-- Association-list lookup for consensus value maps. -/
def lookupQ : List (String × ℚ) → String → Option ℚ
  | [], _ => none
  | (k, v) :: t, i => if k = i then some v else lookupQ t i

/-- Python `dict.get(k, d)`. -/
def getDQ (m : List (String × ℚ)) (k : String) (d : ℚ) : ℚ :=
  (lookupQ m k).getD d

/-- Neighbors of a node in the undirected communication graph
(`self.communication_graph.neighbors`). -/
def neighborsOf (edges : List (String × String)) (aid : String) : List String :=
  (edges.filter (fun e => e.1 = aid)).map (fun e => e.2) ++
    (edges.filter (fun e => e.2 = aid)).map (fun e => e.1)

/-- One iteration of `implement_consensus_algorithm`: build `new_values`
from `current_values` in iteration order.  Unregistered ids are skipped
(`continue`); agents without neighbors keep their value; otherwise the
value is averaged with the neighbors' values, a missing neighbor value
defaulting to the agent's own (`current_values.get(neighbor, own)`). -/
def consensusStep (agentIds : List String) (edges : List (String × String))
    (cur : List (String × ℚ)) : List (String × ℚ) :=
  cur.filterMap (fun p =>
    if agentIds.contains p.1 then
      if (neighborsOf edges p.1).isEmpty then some (p.1, p.2)
      else
        some (p.1,
          (p.2 + ((neighborsOf edges p.1).map (fun n => getDQ cur n p.2)).sum) /
            (((neighborsOf edges p.1).map (fun n => getDQ cur n p.2)).length + 1))
    else none)

/-- The convergence check of `implement_consensus_algorithm`:
`max([abs(new[a] - cur[a]) for a in cur if a in new])`.  Python's `max`
raises `ValueError` on an empty sequence, modelled as `none`. -/
def maxChangeQ (cur new : List (String × ℚ)) : Option ℚ :=
  match cur.filterMap (fun p => (lookupQ new p.1).map (fun nv => |nv - p.2|)) with
  | [] => none
  | d :: ds => some (ds.foldl max d)

/-- The iteration loop of `implement_consensus_algorithm` with explicit
fuel (`max_iterations = 100`).  Returns the final `new_values` together
with the iteration index at which the loop stopped; `Except.error` models
the `ValueError` raised by `max` on an empty sequence. -/
def consensusLoop (agentIds : List String) (edges : List (String × String)) :
    ℕ → ℕ → List (String × ℚ) → Except Unit (List (String × ℚ) × ℕ)
  | 0, iter, cur => Except.ok (cur, iter)
  | fuel + 1, iter, cur =>
    let new := consensusStep agentIds edges cur
    match maxChangeQ cur new with
    | none => Except.error ()
    | some mc =>
      if mc < 0.01 then Except.ok (new, iter)
      else consensusLoop agentIds edges fuel (iter + 1) new

/-- `SwarmCoordinator.implement_consensus_algorithm`: run up to 100
iterations with convergence threshold `0.01`, then return the mean of the
final value set (`0.0` for an empty set — a branch unreachable past the
convergence check). -/
def implement_consensus_algorithm (agentIds : List String)
    (edges : List (String × String)) (initialValues : List (String × ℚ)) :
    Except Unit ℚ :=
  match consensusLoop agentIds edges 100 0 initialValues with
  | Except.error e => Except.error e
  | Except.ok (final, _) =>
    if final.isEmpty then Except.ok 0
    else Except.ok ((final.map (fun p => p.2)).sum / final.length)

/-- `SwarmCoordinator._calculate_collision_avoidance`: sum, over every other
agent strictly closer than `collision_avoidance_distance`, of the repulsive
term `((avoid - d) / d) * relative_position / d`; coincident agents
(`d = 0`) contribute nothing. -/
noncomputable def calculate_collision_avoidance (avoidDist : ℝ) (agent : AgentR)
    (others : List AgentR) : Vec :=
  others.foldl (fun acc other =>
    if other.id = agent.id then acc
    else if norm2 (agent.position - other.position) < avoidDist then
      if norm2 (agent.position - other.position) > 0 then
        acc + (((avoidDist - norm2 (agent.position - other.position)) /
            norm2 (agent.position - other.position)) *
            (norm2 (agent.position - other.position))⁻¹) •
          (agent.position - other.position)
      else acc
    else acc) (0, 0)

/-- `np.clip(x, lo, hi)`. -/
noncomputable def clipR (x lo hi : ℝ) : ℝ := min (max x lo) hi

/-- The velocity-capping expression of `execute_formation_transition`:
`np.clip(norm(v), 0, max_speed) * v / (norm(v) + 1e-8)`. -/
noncomputable def clipVel (maxSpeed : ℝ) (v : Vec) : Vec :=
  (clipR (norm2 v) 0 maxSpeed / (norm2 v + 1e-8)) • v

/-- Four-quadrant arctangent (`np.arctan2 y x`), with `arctan2 0 0 = 0`. -/
noncomputable def arctan2 (y x : ℝ) : ℝ :=
  if x > 0 then Real.arctan (y / x)
  else if x < 0 ∧ 0 ≤ y then Real.arctan (y / x) + Real.pi
  else if x < 0 ∧ y < 0 then Real.arctan (y / x) - Real.pi
  else if x = 0 ∧ y > 0 then Real.pi / 2
  else if x = 0 ∧ y < 0 then -(Real.pi / 2)
  else 0

/-- The velocity written by `execute_formation_transition` for an agent
beyond tolerance: `desired + avoidance` capped by `clipVel`, with
`desired = direction / distance * max_speed`. -/
noncomputable def motionFinalVelocity (ps : CoordinationParams)
    (s : List (String × AgentR)) (ag : AgentR) (target : Vec) : Vec :=
  clipVel ag.max_speed
    ((ag.max_speed * (norm2 (target - ag.position))⁻¹) • (target - ag.position) +
      calculate_collision_avoidance ps.collision_avoidance_distance ag
        (s.map (fun p => p.2)))

/-- Body of the `execute_formation_transition` loop for one assignment
entry: unknown ids are skipped; an agent farther from its target than
`formation_tolerance` gets its velocity, position (`Δt = 1 /
update_frequency`) and heading written back into the registry; an agent
within tolerance is not touched at all. -/
noncomputable def motionStep (ps : CoordinationParams)
    (s : List (String × AgentR)) (e : String × Vec) : List (String × AgentR) :=
  match lookupA s e.1 with
  | none => s
  | some ag =>
    if norm2 (e.2 - ag.position) > ps.formation_tolerance then
      updateA s e.1
        { ag with
          velocity := motionFinalVelocity ps s ag e.2
          position := ag.position +
            (1 / ps.update_frequency) • motionFinalVelocity ps s ag e.2
          heading := arctan2 (motionFinalVelocity ps s ag e.2).2
            (motionFinalVelocity ps s ag e.2).1 }
    else s

/-- `SwarmCoordinator.execute_formation_transition`: iterate the motion
update over the assignment map in insertion order, mutating the registry
as it goes (later agents see earlier agents' already-updated positions). -/
noncomputable def execute_formation_transition (ps : CoordinationParams)
    (assignments : List (String × Vec)) (s : List (String × AgentR)) :
    List (String × AgentR) :=
  assignments.foldl (motionStep ps) s

/-- Modelled from the spec wording of C4 (§4.4), for comparison with
`motionStep`: the per-tick update that the claim describes, in which an
agent within `formation_tolerance` still gets `desired = 0`, still has
avoidance added and clipped, still moves by `velocity·Δt`, and keeps its
previous heading exactly when the resultant velocity is zero. -/
noncomputable def claimFinalVelocity (ps : CoordinationParams)
    (s : List (String × AgentR)) (ag : AgentR) (target : Vec) : Vec :=
  clipVel ag.max_speed
    ((if norm2 (target - ag.position) > ps.formation_tolerance then
        (ag.max_speed * (norm2 (target - ag.position))⁻¹) • (target - ag.position)
      else (0, 0)) +
      calculate_collision_avoidance ps.collision_avoidance_distance ag
        (s.map (fun p => p.2)))

/-- Per-entry update described by claim C4 (continued). -/
noncomputable def claimMotionStep (ps : CoordinationParams)
    (s : List (String × AgentR)) (e : String × Vec) : List (String × AgentR) :=
  match lookupA s e.1 with
  | none => s
  | some ag =>
    updateA s e.1
      { ag with
        velocity := claimFinalVelocity ps s ag e.2
        position := ag.position +
          (1 / ps.update_frequency) • claimFinalVelocity ps s ag e.2
        heading := if claimFinalVelocity ps s ag e.2 = (0, 0) then ag.heading
          else arctan2 (claimFinalVelocity ps s ag e.2).2
            (claimFinalVelocity ps s ag e.2).1 }

/-- Tick described by claim C4: `claimMotionStep` folded over the
assignment map. -/
noncomputable def claimExecuteTransition (ps : CoordinationParams)
    (assignments : List (String × Vec)) (s : List (String × AgentR)) :
    List (String × AgentR) :=
  assignments.foldl (claimMotionStep ps) s

/-- Normalization of a vector, `v / |v|`. -/
noncomputable def normalizeV (v : Vec) : Vec := (norm2 v)⁻¹ • v

/-- The amended reading of claim C4, spelled with the spec's vocabulary:
beyond tolerance, `desired = normalize(direction) · max_speed`, avoidance
is added, the sum is capped by the code's `clipVel` expression, and
velocity, position (`Δt = 1 / update_frequency`) and heading
(`atan2(v.y, v.x)`, unconditionally) are written back; within tolerance
the agent is left entirely unchanged. -/
noncomputable def amendedFinalVelocity (ps : CoordinationParams)
    (s : List (String × AgentR)) (ag : AgentR) (target : Vec) : Vec :=
  clipVel ag.max_speed
    (ag.max_speed • normalizeV (target - ag.position) +
      calculate_collision_avoidance ps.collision_avoidance_distance ag
        (s.map (fun p => p.2)))

/-- Per-entry update of the amended claim C4 (continued). -/
noncomputable def amendedMotionStep (ps : CoordinationParams)
    (s : List (String × AgentR)) (e : String × Vec) : List (String × AgentR) :=
  match lookupA s e.1 with
  | none => s
  | some ag =>
    if norm2 (e.2 - ag.position) > ps.formation_tolerance then
      updateA s e.1
        { ag with
          velocity := amendedFinalVelocity ps s ag e.2
          position := ag.position +
            (1 / ps.update_frequency) • amendedFinalVelocity ps s ag e.2
          heading := arctan2 (amendedFinalVelocity ps s ag e.2).2
            (amendedFinalVelocity ps s ag e.2).1 }
    else s

/-- `FormationController._wedge_formation`: the leader at `center`, then,
for `i = 1, …, count-1`, side `+1` for odd `i` and `-1` for even `i`,
rank `(i+1) / 2`, `x` offset `-rank·spacing·cos(heading)` and `y` offset
`side·rank·spacing·0.7·sin(heading + π/2)`. -/
noncomputable def wedge_formation (center : Vec) (num_agents : ℕ)
    (spacing heading : ℝ) : List Vec :=
  center :: (List.range' 1 (num_agents - 1)).map (fun i =>
    let side : ℝ := if i % 2 = 1 then 1 else -1
    let rank : ℕ := (i + 1) / 2
    center + ((-(rank : ℝ)) * spacing * Real.cos heading,
      side * (rank : ℝ) * spacing * 0.7 * Real.sin (heading + Real.pi / 2)))

/-- Modelled from the spec wording of C8 (§4.2): the offset that the claim
assigns to the agent of the given rank and side — `rank·spacing` backward
along the heading axis plus `side·rank·spacing·0.7` along the lateral
(perpendicular, `heading + π/2`) axis. -/
noncomputable def claimWedgeOffset (rank side spacing heading : ℝ) : Vec :=
  (-(rank * spacing)) • (Real.cos heading, Real.sin heading) +
    (side * rank * spacing * 0.7) •
      (Real.cos (heading + Real.pi / 2), Real.sin (heading + Real.pi / 2))

/-- `np.mean(target_positions, axis=0)`. -/
noncomputable def centroid (ps : List Vec) : Vec :=
  ((ps.map (fun p => p.1)).sum / ps.length, (ps.map (fun p => p.2)).sum / ps.length)

/-- Stable insertion of an element into a list sorted by a real-valued key:
the new element goes before the first strictly-greater key and before no
equal key, reproducing Python's stable `sorted`. -/
noncomputable def insertByKey (key : AgentR → ℝ) (x : AgentR) :
    List AgentR → List AgentR
  | [] => [x]
  | y :: ys => if key x ≤ key y then x :: y :: ys else y :: insertByKey key x ys

/-- Python's stable `sorted(agents, key=...)` for a real-valued key. -/
noncomputable def sortByKey (key : AgentR → ℝ) : List AgentR → List AgentR
  | [] => []
  | x :: xs => insertByKey key x (sortByKey key xs)

/-- `np.argmin`: index of the first minimum of a nonempty list (0 for an
empty one). -/
noncomputable def argminIdx : List ℝ → ℕ
  | [] => 0
  | [_] => 0
  | x :: y :: ys =>
    if x ≤ (y :: ys).getD (argminIdx (y :: ys)) 0 then 0
    else argminIdx (y :: ys) + 1

/-- The greedy loop of `_optimize_position_assignments`: each agent in
order claims the currently nearest remaining target (`np.argmin` over the
distances, first index on ties, then `pop`); the loop breaks once no
positions remain. -/
noncomputable def optimizeAssignGo : List AgentR → List Vec → List (String × Vec)
  | [], _ => []
  | _, [] => []
  | a :: rest, p :: avail =>
    (a.id, (p :: avail).getD
        (argminIdx ((p :: avail).map (fun t => norm2 (a.position - t)))) (0, 0)) ::
      optimizeAssignGo rest ((p :: avail).eraseIdx
        (argminIdx ((p :: avail).map (fun t => norm2 (a.position - t)))))

/-- `SwarmCoordinator._optimize_position_assignments`: sort agents by their
distance to the centroid of the target positions (Python's stable sort:
ties keep the input order), then run the greedy claiming loop. -/
noncomputable def optimize_position_assignments (agents : List AgentR)
    (targets : List Vec) : List (String × Vec) :=
  optimizeAssignGo
    (sortByKey (fun a => norm2 (a.position - centroid targets)) agents) targets

/-- Lexicographic comparison of character lists by code point. -/
def charListLt : List Char → List Char → Bool
  | [], [] => false
  | [], _ :: _ => true
  | _ :: _, [] => false
  | a :: as, b :: bs =>
    if a.toNat < b.toNat then true
    else if b.toNat < a.toNat then false
    else charListLt as bs

/-- Lexicographic order on agent ids. -/
def idLt (a b : String) : Bool := charListLt a.data b.data

/-- Modelled from the spec wording of C5 (§4.3), for comparison with
`optimize_position_assignments`: insertion with distance ties broken by
agent id, the tie-break that claim C5 asserts. -/
noncomputable def insertByDistThenId (key : AgentR → ℝ) (x : AgentR) :
    List AgentR → List AgentR
  | [] => [x]
  | y :: ys =>
    if key x < key y ∨ (key x = key y ∧ idLt x.id y.id = true) then x :: y :: ys
    else y :: insertByDistThenId key x ys

/-- Sort by ascending key with ties broken by agent id. -/
noncomputable def sortByDistThenId (key : AgentR → ℝ) : List AgentR → List AgentR
  | [] => []
  | x :: xs => insertByDistThenId key x (sortByDistThenId key xs)

/-- Assignment as claim C5 states it: sorted by centroid distance with id
tie-break, then the same greedy claiming loop. -/
noncomputable def claimAssign (agents : List AgentR) (targets : List Vec) :
    List (String × Vec) :=
  optimizeAssignGo
    (sortByDistThenId (fun a => norm2 (a.position - centroid targets)) agents) targets

/-- `str.lower()`. -/
def lowerStr (s : String) : String := s.map Char.toLower

/-- Whether the first character list starts the second. -/
def startsWithChars : List Char → List Char → Bool
  | [], _ => true
  | _ :: _, [] => false
  | a :: n, b :: h => a = b && startsWithChars n h

/-- Whether the first character list occurs inside the second
(Python's `needle in haystack` on strings). -/
def substrChars (n : List Char) : List Char → Bool
  | [] => n.isEmpty
  | c :: t => startsWithChars n (c :: t) || substrChars n t

/-- Python's `needle in haystack` for strings. -/
def substrOf (needle hay : String) : Bool := substrChars needle.data hay.data

/-- Python's `min` of the distances from a point to each target
(the `[]` case is never used: the callers guard against empty targets). -/
noncomputable def minDistToTargets (p : Vec) : List Vec → ℝ
  | [] => 0
  | t :: rest => rest.foldl (fun m x => min m (norm2 (p - x))) (norm2 (p - t))

/-- The scoring of `_assign_agents_to_mission`: proximity to the nearest
target (when targets exist), energy, an objective/role keyword match and
an equipment keyword match. -/
noncomputable def agentScore (mission : MissionR) (ag : AgentR) : ℝ :=
  (if mission.target_positions.isEmpty then 0
    else 1 / (minDistToTargets ag.position mission.target_positions + 1)) +
  ag.energy / 100 +
  (if substrOf (lowerStr mission.objective) (lowerStr ag.role) then 2 else 0) +
  (if ag.equipment.any (fun eq => substrOf eq (lowerStr mission.objective))
    then 1 else 0)

/-- Stable descending insertion for the score sort (`sorted(...,
reverse=True)` keeps the original order of equal scores). -/
noncomputable def insertDescScore (x : String × ℝ) :
    List (String × ℝ) → List (String × ℝ)
  | [] => [x]
  | y :: ys => if x.2 ≥ y.2 then x :: y :: ys else y :: insertDescScore x ys

/-- Python's stable `sorted(..., reverse=True)` on scores. -/
noncomputable def sortDescScore : List (String × ℝ) → List (String × ℝ)
  | [] => []
  | x :: xs => insertDescScore x (sortDescScore xs)

/-- `SwarmCoordinator._assign_agents_to_mission`: score every registered
agent, sort descending by score and keep the first `required_agents` ids. -/
noncomputable def assign_agents_to_mission (agents : List (String × AgentR))
    (mission : MissionR) : List String :=
  ((sortDescScore (agents.map (fun p => (p.1, agentScore mission p.2)))).map
    (fun p => p.1)).take mission.required_agents

/-- The `total_distance` accumulated by `_update_mission_progress`: the sum,
over the selected agent ids present in the registry, of the distance to
the nearest mission target. -/
noncomputable def missionTotalDistance (agents : List (String × AgentR))
    (mission : MissionR) : ℝ :=
  ((assign_agents_to_mission agents mission).filterMap (fun aid =>
    (lookupA agents aid).map (fun ag =>
      minDistToTargets ag.position mission.target_positions))).sum

/-- `SwarmCoordinator._update_mission_progress` (the mission id already
resolved in `self.missions`): empty target list is a no-op; otherwise the
mean over the selected agents of the distance to the nearest target is
turned into `max(0, 1 - mean/100)`; with no selected agents the metric is
also left unchanged. -/
noncomputable def update_mission_progress (agents : List (String × AgentR))
    (mission : MissionR) (oldProgress : ℝ) : ℝ :=
  if mission.target_positions.isEmpty then oldProgress
  else if (assign_agents_to_mission agents mission).isEmpty then oldProgress
  else max 0 (1 - missionTotalDistance agents mission /
    (assign_agents_to_mission agents mission).length / 100)

/-- Agent constructor filling the fields that the embedded operations never
distinguish between the concrete test states below. -/
noncomputable def mkAgent (id : String) (pos vel : Vec)
    (heading maxSpeed energy : ℝ) : AgentR :=
  { id := id, position := pos, velocity := vel, heading := heading
    role := "scout", status := "active", communication_range := 30
    max_speed := maxSpeed, energy := energy, equipment := [] }

/-- First agent registered under id `X` (energy 50). -/
noncomputable def agX1 : AgentR := mkAgent "X" (0, 0) (0, 0) 0 10 50

/-- Second, different agent carrying the same id `X` (energy 60). -/
noncomputable def agX2 : AgentR := mkAgent "X" (0, 0) (0, 0) 0 10 60

/-- Stationary agent used to exercise the motion tick. -/
noncomputable def agW : AgentR := mkAgent "A" (0, 0) (0, 0) 0 10 80

/-- Agent already at its target but with a nonzero stored velocity. -/
noncomputable def agC4 : AgentR := mkAgent "A" (0, 0) (1, 0) 0 10 80

/-- Agent `B`, listed first, at distance 1 from the origin. -/
noncomputable def agB5 : AgentR := mkAgent "B" (0, 1) (0, 0) 0 10 100

/-- Agent `A`, listed second, also at distance 1 from the origin. -/
noncomputable def agA5 : AgentR := mkAgent "A" (0, -1) (0, 0) 0 10 100

/-- Agent at the origin used for collision-avoidance evaluations. -/
noncomputable def probeAgent : AgentR := mkAgent "P" (0, 0) (0, 0) 0 10 100

/-- Agent at distance `d` along the x-axis from `probeAgent`. -/
noncomputable def probeOther (d : ℝ) : AgentR := mkAgent "Q" (d, 0) (0, 0) 0 10 100

/-- Agent standing exactly on the mission target. -/
noncomputable def agM : AgentR := mkAgent "A" (0, 0) (0, 0) 0 10 50

/-- Agent 200 distance units away from the mission target. -/
noncomputable def agFar : AgentR := mkAgent "A" (200, 0) (0, 0) 0 10 50

/-- One-target mission requiring one agent. -/
noncomputable def mW : MissionR :=
  { id := "m1", objective := "patrol", target_positions := [(0, 0)]
    priority := 1, formation_type := "line", required_agents := 1
    risk_level := "low" }

/-- Mission with an empty target list. -/
noncomputable def mEmpty : MissionR :=
  { id := "m0", objective := "patrol", target_positions := []
    priority := 1, formation_type := "line", required_agents := 1
    risk_level := "low" }

/-- Registered ids for the consensus run: three connected, one isolated. -/
def cIdsQ : List String := ["A", "B", "C", "D"]

/-- Communication edges: `A`, `B`, `C` fully connected, `D` isolated. -/
def cEdgesQ : List (String × String) := [("A", "B"), ("A", "C"), ("B", "C")]

/-- Initial consensus values `{A:0, B:10, C:20, D:100}`. -/
def cInitQ : List (String × ℚ) := [("A", 0), ("B", 10), ("C", 20), ("D", 100)]

/-- Values at which the consensus loop stops. -/
def cFinalQ : List (String × ℚ) := [("A", 10), ("B", 10), ("C", 10), ("D", 100)]

theorem lookupA_updateA (l : List (String × AgentR)) (k : String) (a : AgentR)
    (i : String) :
    lookupA (updateA l k a) i = if i = k then some a else lookupA l i := by
  induction l with
  | nil =>
    by_cases h : i = k
    · simp [updateA, lookupA, h]
    · have h2 : ¬ k = i := fun hh => h hh.symm
      simp [updateA, lookupA, h, h2]
  | cons p t ih =>
    obtain ⟨k', b⟩ := p
    by_cases hk : k' = k
    · subst hk
      by_cases hi : i = k'
      · simp [updateA, lookupA, hi]
      · have h2 : ¬ k' = i := fun hh => hi hh.symm
        simp [updateA, lookupA, hi, h2]
    · by_cases hi : k' = i
      · have hik : ¬ i = k := fun hh => hk (hi.trans hh)
        simp [updateA, lookupA, hk, hi, hik]
      · simp [updateA, lookupA, hk, hi, ih]

theorem lookupA_mem {l : List (String × AgentR)} {k : String} {a : AgentR}
    (h : lookupA l k = some a) : (k, a) ∈ l := by
  induction l with
  | nil => simp [lookupA] at h
  | cons p t ih =>
    obtain ⟨k', b⟩ := p
    by_cases hk : k' = k
    · subst hk
      simp [lookupA] at h
      subst h
      exact List.mem_cons_self _ _
    · simp [lookupA, hk] at h
      exact List.mem_cons_of_mem _ (ih h)

theorem mem_updateA {l : List (String × AgentR)} {k : String} {a : AgentR}
    {p : String × AgentR} (h : p ∈ updateA l k a) : p ∈ l ∨ p = (k, a) := by
  induction l with
  | nil =>
    simp only [updateA, List.mem_singleton] at h
    exact Or.inr h
  | cons q t ih =>
    obtain ⟨k', b⟩ := q
    by_cases hk : k' = k
    · rw [updateA, if_pos hk] at h
      rcases List.mem_cons.mp h with h | h
      · exact Or.inr h
      · exact Or.inl (List.mem_cons_of_mem _ h)
    · rw [updateA, if_neg hk] at h
      rcases List.mem_cons.mp h with h | h
      · exact Or.inl (by simp [h])
      · rcases ih h with h' | h'
        · exact Or.inl (List.mem_cons_of_mem _ h')
        · exact Or.inr h'

/-- Claim C1 (corrected): `add_agent` never rejects a duplicate id.  Adding
`agX2` while a different agent `agX1` is already stored under the same id
`X` succeeds and silently overwrites: the registry afterwards returns the
new agent, not the previously stored one. -/
theorem add_agent_duplicate_counterexample :
    lookupA (add_agent (add_agent emptySwarm agX1) agX2).agents "X" = some agX2
      ∧ agX2 ≠ agX1 := by
  constructor
  · rfl
  · intro h
    have := congrArg AgentR.energy h
    norm_num [agX1, agX2, mkAgent] at this

/-- Claim C1 (amended): `add_agent` always stores the given agent under its
id, whether or not that id was already registered — the previous binding,
if any, is overwritten rather than the call failing. -/
theorem add_agent_stores_new_agent (s : SwarmState) (a : AgentR) :
    lookupA (add_agent s a).agents a.id = some a := by
  simp [add_agent, lookupA_updateA]

/-- Claim C2: `implement_consensus_algorithm` does not return a value when
no id of the initial-values map is registered: both on the empty map and
on a map whose only id is unregistered (in particular on a swarm with zero
agents), the convergence check computes `max` of an empty sequence and the
call raises `ValueError` instead of returning. -/
theorem consensus_unregistered_raises :
    implement_consensus_algorithm [] [] [] = Except.error ()
      ∧ implement_consensus_algorithm [] [] [("X", 5)] = Except.error () := by
  constructor <;> rfl

/-- Claim C10: removing an unregistered agent id returns normally and is a
strict no-op — the registry, the graph nodes and the graph edges are all
left exactly as they were. -/
theorem remove_agent_unknown_noop (s : SwarmState) (aid : String)
    (h : lookupA s.agents aid = none) : remove_agent s aid = s := by
  simp [remove_agent, h]

/-- Witness for C10 at a concrete state: `Z` is not registered in the empty
swarm and removing it changes nothing. -/
theorem remove_agent_unknown_noop_witness :
    lookupA emptySwarm.agents "Z" = none ∧ remove_agent emptySwarm "Z" = emptySwarm :=
  ⟨rfl, remove_agent_unknown_noop emptySwarm "Z" rfl⟩

theorem lookupQ_filterMap_key (f : String × ℚ → Option (String × ℚ))
    (hf : ∀ p q, f p = some q → q.1 = p.1) :
    ∀ (l : List (String × ℚ)) (aid : String) (v w : ℚ),
      lookupQ l aid = some v → f (aid, v) = some (aid, w) →
      lookupQ (l.filterMap f) aid = some w := by
  intro l
  induction l with
  | nil => intro aid v w h _; simp [lookupQ] at h
  | cons p t ih =>
    intro aid v w hl hfv
    obtain ⟨k, x⟩ := p
    by_cases hk : k = aid
    · subst hk
      have hx : x = v := by simpa [lookupQ] using hl
      subst hx
      rw [List.filterMap_cons, hfv]
      simp [lookupQ]
    · have hl' : lookupQ t aid = some v := by simpa [lookupQ, hk] using hl
      rw [List.filterMap_cons]
      cases hfp : f (k, x) with
      | none => exact ih aid v w hl' hfv
      | some q =>
        have hq : q.1 = k := hf (k, x) q hfp
        have hskip : lookupQ (q :: t.filterMap f) aid = lookupQ (t.filterMap f) aid := by
          simp [lookupQ, hq, hk]
        rw [hskip]
        exact ih aid v w hl' hfv

/-- Claim C6: an agent with zero communication-graph neighbors keeps its
value unchanged in every consensus iteration (for any registered agent,
any graph and any value map); concretely, with `A`, `B`, `C` fully
connected starting at 0, 10, 20 and an isolated `D` at 100, the consensus
loop stops at iteration 1 (fewer than 100) with `A`, `B`, `C` all within
0.01 of 10.0 and `D` still exactly 100. -/
theorem consensus_convergence_properties :
    (∀ (agentIds : List String) (edges : List (String × String))
        (cur : List (String × ℚ)) (aid : String) (v : ℚ),
        neighborsOf edges aid = [] → agentIds.contains aid = true →
        lookupQ cur aid = some v →
        lookupQ (consensusStep agentIds edges cur) aid = some v)
      ∧ consensusLoop cIdsQ cEdgesQ 100 0 cInitQ = Except.ok (cFinalQ, 1)
      ∧ (1 < 100 ∧ ∀ aid ∈ (["A", "B", "C"] : List String),
          ∃ v : ℚ, lookupQ cFinalQ aid = some v ∧ |v - 10| < 0.01)
      ∧ lookupQ cFinalQ "D" = some 100 := by
  refine ⟨?_, ?_, ⟨by norm_num, ?_⟩, by rfl⟩
  · intro agentIds edges cur aid v hnb hreg hl
    refine lookupQ_filterMap_key _ ?_ cur aid v v hl ?_
    · intro p q hpq
      by_cases h1 : agentIds.contains p.1 = true
      · rw [if_pos h1] at hpq
        by_cases h2 : (neighborsOf edges p.1).isEmpty = true
        · rw [if_pos h2] at hpq
          injection hpq with hh
          rw [← hh]
        · rw [if_neg h2] at hpq
          injection hpq with hh
          rw [← hh]
      · rw [if_neg h1] at hpq
        exact absurd hpq (by simp)
    · simp [hreg, hnb]
      simpa using hreg
  · have hstep1 : consensusStep cIdsQ cEdgesQ cInitQ = cFinalQ := by
      simp [consensusStep, cIdsQ, cEdgesQ, cInitQ, cFinalQ, neighborsOf, getDQ, lookupQ,
        List.filterMap_cons, List.filter_cons]
      norm_num
    have hstep2 : consensusStep cIdsQ cEdgesQ cFinalQ = cFinalQ := by
      simp [consensusStep, cIdsQ, cEdgesQ, cFinalQ, neighborsOf, getDQ, lookupQ,
        List.filterMap_cons, List.filter_cons]
      norm_num
    have hmax1 : maxChangeQ cInitQ cFinalQ = some 10 := by
      simp [maxChangeQ, cInitQ, cFinalQ, lookupQ, List.filterMap_cons]
      norm_num
    have hmax2 : maxChangeQ cFinalQ cFinalQ = some 0 := by
      simp [maxChangeQ, cFinalQ, lookupQ, List.filterMap_cons]
    have h100 : (100 : ℕ) = 99 + 1 := rfl
    have h99 : (99 : ℕ) = 98 + 1 := rfl
    rw [h100, consensusLoop.eq_2]
    simp only [hstep1, hmax1]
    rw [if_neg (by norm_num)]
    rw [h99, consensusLoop.eq_2]
    simp only [hstep2, hmax2]
    rw [if_pos (by norm_num)]
  · intro aid h
    fin_cases h <;> exact ⟨10, rfl, by norm_num⟩

/-- Witness for C6 at the concrete system: `D` is registered, has no
neighbors and keeps its value 100 through the consensus step. -/
theorem consensus_convergence_properties_witness :
    neighborsOf cEdgesQ "D" = [] ∧ cIdsQ.contains "D" = true
      ∧ lookupQ cInitQ "D" = some 100
      ∧ lookupQ (consensusStep cIdsQ cEdgesQ cInitQ) "D" = some 100 :=
  ⟨rfl, rfl, rfl,
    consensus_convergence_properties.1 cIdsQ cEdgesQ cInitQ "D" 100 rfl rfl rfl⟩

theorem norm2_nonneg (v : Vec) : 0 ≤ norm2 v := Real.sqrt_nonneg _

theorem norm2_smul (c : ℝ) (v : Vec) : norm2 (c • v) = |c| * norm2 v := by
  unfold norm2
  have h1 : (c • v).1 = c * v.1 := rfl
  have h2 : (c • v).2 = c * v.2 := rfl
  rw [h1, h2]
  have h3 : (c * v.1) ^ 2 + (c * v.2) ^ 2 = c ^ 2 * (v.1 ^ 2 + v.2 ^ 2) := by ring
  rw [h3, Real.sqrt_mul (sq_nonneg c), Real.sqrt_sq_eq_abs]

theorem clipR_nonneg {m : ℝ} (hm : 0 ≤ m) (x : ℝ) : 0 ≤ clipR x 0 m :=
  le_min (le_max_right _ _) hm

theorem clipVel_norm_le (m : ℝ) (v : Vec) (hm : 0 ≤ m) :
    norm2 (clipVel m v) ≤ m := by
  have hn : 0 ≤ norm2 v := norm2_nonneg v
  have hden : (0 : ℝ) < norm2 v + 1e-8 := by
    have : (0 : ℝ) < 1e-8 := by norm_num
    linarith
  unfold clipVel
  rw [norm2_smul, abs_of_nonneg (div_nonneg (clipR_nonneg hm _) hden.le)]
  have hclip : clipR (norm2 v) 0 m ≤ m := min_le_right _ _
  have hfrac : norm2 v / (norm2 v + 1e-8) ≤ 1 := by
    rw [div_le_one hden]
    linarith
  calc clipR (norm2 v) 0 m / (norm2 v + 1e-8) * norm2 v
      = clipR (norm2 v) 0 m * (norm2 v / (norm2 v + 1e-8)) := by ring
    _ ≤ m * 1 :=
        mul_le_mul hclip hfrac (div_nonneg hn hden.le) hm
    _ = m := mul_one m

theorem clipVel_dir (m : ℝ) (v : Vec) (hm : 0 ≤ m) :
    ∃ c : ℝ, 0 ≤ c ∧ clipVel m v = c • v := by
  refine ⟨clipR (norm2 v) 0 m / (norm2 v + 1e-8), ?_, rfl⟩
  have hden : (0 : ℝ) < norm2 v + 1e-8 := by
    have h0 : 0 ≤ norm2 v := norm2_nonneg v
    have : (0 : ℝ) < 1e-8 := by norm_num
    linarith
  exact div_nonneg (clipR_nonneg hm _) hden.le

theorem motionStep_mem (ps : CoordinationParams) (s : List (String × AgentR))
    (e : String × Vec) :
    ∀ p ∈ motionStep ps s e, p ∈ s ∨ ∃ q ∈ s, p.2.max_speed = q.2.max_speed := by
  intro p hp
  unfold motionStep at hp
  split at hp
  · exact Or.inl hp
  · rename_i ag hl
    split at hp
    · rcases mem_updateA hp with h | h
      · exact Or.inl h
      · exact Or.inr ⟨(e.1, ag), lookupA_mem hl, by rw [h]⟩
    · exact Or.inl hp

theorem motionStep_lookup (ps : CoordinationParams) (s : List (String × AgentR))
    (e : String × Vec) (i : String) (ag' : AgentR)
    (hinv : ∀ p ∈ s, 0 ≤ p.2.max_speed)
    (h : lookupA (motionStep ps s e) i = some ag') :
    lookupA s i = some ag' ∨ norm2 ag'.velocity ≤ ag'.max_speed := by
  unfold motionStep at h
  split at h
  · exact Or.inl h
  · rename_i ag hl
    split at h
    · rw [lookupA_updateA] at h
      by_cases hi : i = e.1
      · rw [if_pos hi] at h
        injection h with h
        have hms : 0 ≤ ag.max_speed := hinv (e.1, ag) (lookupA_mem hl)
        right
        rw [← h]
        exact clipVel_norm_le _ _ hms
      · rw [if_neg hi] at h
        exact Or.inl h
    · exact Or.inl h

theorem execute_transition_inv (ps : CoordinationParams) :
    ∀ (assigns : List (String × Vec)) (s : List (String × AgentR)),
      (∀ p ∈ s, 0 ≤ p.2.max_speed) → ∀ i ag',
      lookupA (execute_formation_transition ps assigns s) i = some ag' →
      lookupA s i = some ag' ∨ norm2 ag'.velocity ≤ ag'.max_speed := by
  intro assigns
  induction assigns with
  | nil => intro s _ i ag' h; exact Or.inl h
  | cons e rest ih =>
    intro s hinv i ag' h
    have hinv' : ∀ p ∈ motionStep ps s e, 0 ≤ p.2.max_speed := by
      intro p hp
      rcases motionStep_mem ps s e p hp with h' | ⟨q, hq, hpq⟩
      · exact hinv p h'
      · rw [hpq]; exact hinv q hq
    have hfold : lookupA (execute_formation_transition ps rest (motionStep ps s e)) i
        = some ag' := h
    rcases ih (motionStep ps s e) hinv' i ag' hfold with h' | h'
    · exact motionStep_lookup ps s e i ag' hinv h'
    · exact Or.inr h'

/-- Claim C3: the clipping expression of the motion update always yields a
velocity of magnitude at most `max_speed` and a nonnegative multiple of
`desired + avoidance` (direction preserved); consequently, after a whole
`execute_formation_transition` tick over any assignment map, every agent
either still carries its previous record or has a velocity whose norm is
bounded by its `max_speed`. -/
theorem motion_update_speed_capped :
    (∀ (m : ℝ) (v : Vec), 0 ≤ m →
      norm2 (clipVel m v) ≤ m ∧ ∃ c : ℝ, 0 ≤ c ∧ clipVel m v = c • v)
      ∧ ∀ (ps : CoordinationParams) (assigns : List (String × Vec))
          (s : List (String × AgentR)),
          (∀ p ∈ s, 0 ≤ p.2.max_speed) → ∀ i ag',
          lookupA (execute_formation_transition ps assigns s) i = some ag' →
          lookupA s i = some ag' ∨ norm2 ag'.velocity ≤ ag'.max_speed := by
  constructor
  · intro m v hm
    exact ⟨clipVel_norm_le m v hm, clipVel_dir m v hm⟩
  · intro ps assigns s hinv i ag' h
    exact execute_transition_inv ps assigns s hinv i ag' h

/-- Witness for C3: the cap at `max_speed = 10` on the concrete vector
`(3, 4)`, and the whole-tick bound at a concrete one-agent registry. -/
theorem motion_update_speed_capped_witness :
    ((0 : ℝ) ≤ 10 ∧ norm2 (clipVel 10 ((3 : ℝ), (4 : ℝ))) ≤ 10)
      ∧ ((∀ p ∈ [("A", agW)], 0 ≤ p.2.max_speed)
        ∧ lookupA (execute_formation_transition defaultParams [] [("A", agW)]) "A"
            = some agW
        ∧ (lookupA [("A", agW)] "A" = some agW
            ∨ norm2 agW.velocity ≤ agW.max_speed)) := by
  have hm : (0 : ℝ) ≤ 10 := by norm_num
  have hinv : ∀ p ∈ [("A", agW)], 0 ≤ p.2.max_speed := by
    intro p hp
    rw [List.mem_singleton] at hp
    rw [hp]
    show (0 : ℝ) ≤ agW.max_speed
    norm_num [agW, mkAgent]
  have hlook : lookupA (execute_formation_transition defaultParams [] [("A", agW)]) "A"
      = some agW := rfl
  exact ⟨⟨hm, (motion_update_speed_capped.1 10 ((3 : ℝ), (4 : ℝ)) hm).1⟩,
    hinv, hlook,
    motion_update_speed_capped.2 defaultParams [] [("A", agW)] hinv "A" agW hlook⟩

theorem smul_pair_zero (c : ℝ) : c • (((0 : ℝ), (0 : ℝ)) : Vec) = ((0 : ℝ), (0 : ℝ)) := by
  rw [Prod.smul_mk, smul_eq_mul, mul_zero]

/-- Claim C4 (corrected), counterexample: the agent `A` sits exactly on its
assigned target `(0, 0)` with stored velocity `(1, 0)`.  The code's tick
leaves `A` entirely untouched (velocity still `(1, 0)`), whereas the tick
the claim describes (desired `= 0` within tolerance, avoidance added,
clipped result written to velocity) would store velocity `(0, 0)`. -/
theorem motion_tick_tolerance_counterexample :
    lookupA (execute_formation_transition defaultParams
        [("A", ((0 : ℝ), (0 : ℝ)))] [("A", agC4)]) "A" = some agC4
      ∧ lookupA (claimExecuteTransition defaultParams
          [("A", ((0 : ℝ), (0 : ℝ)))] [("A", agC4)]) "A"
          = some { agC4 with velocity := ((0 : ℝ), (0 : ℝ)) }
      ∧ { agC4 with velocity := ((0 : ℝ), (0 : ℝ)) } ≠ agC4 := by
  have hpos : agC4.position = ((0 : ℝ), (0 : ℝ)) := rfl
  have hnorm : norm2 (((0 : ℝ), (0 : ℝ)) - agC4.position) = 0 := by
    rw [hpos]
    norm_num [norm2, Prod.fst_sub, Prod.snd_sub, Real.sqrt_zero]
  refine ⟨?_, ?_, ?_⟩
  · have hm : motionStep defaultParams [("A", agC4)] ("A", ((0 : ℝ), (0 : ℝ)))
        = [("A", agC4)] := by
      unfold motionStep
      split
      · rfl
      · rename_i ag hl2
        have h3 : some agC4 = some ag := hl2
        injection h3 with h4
        subst h4
        rw [if_neg]
        norm_num [agC4, mkAgent, norm2, Prod.fst_sub, Prod.snd_sub, Real.sqrt_zero,
          defaultParams]
    show lookupA (motionStep defaultParams [("A", agC4)] ("A", ((0 : ℝ), (0 : ℝ)))) "A"
        = some agC4
    rw [hm]
    rfl
  · have havoid : calculate_collision_avoidance
        defaultParams.collision_avoidance_distance agC4 [agC4] = ((0 : ℝ), (0 : ℝ)) := by
      simp [calculate_collision_avoidance]
    have hcfv : claimFinalVelocity defaultParams [("A", agC4)] agC4 ((0 : ℝ), (0 : ℝ))
        = ((0 : ℝ), (0 : ℝ)) := by
      unfold claimFinalVelocity
      rw [if_neg]
      · simp only [List.map, havoid]
        have hz : (((0 : ℝ), (0 : ℝ)) : Vec) + ((0 : ℝ), (0 : ℝ)) = ((0 : ℝ), (0 : ℝ)) := by
          rw [Prod.mk_add_mk, add_zero]
        rw [hz]
        unfold clipVel
        exact smul_pair_zero _
      · rw [hnorm]
        norm_num [defaultParams]
    have hag : ({ agC4 with
        velocity := claimFinalVelocity defaultParams [("A", agC4)] agC4 ((0 : ℝ), (0 : ℝ))
        position := agC4.position + (1 / defaultParams.update_frequency) •
          claimFinalVelocity defaultParams [("A", agC4)] agC4 ((0 : ℝ), (0 : ℝ))
        heading := if claimFinalVelocity defaultParams [("A", agC4)] agC4
            ((0 : ℝ), (0 : ℝ)) = (0, 0) then agC4.heading
          else arctan2 (claimFinalVelocity defaultParams [("A", agC4)] agC4
            ((0 : ℝ), (0 : ℝ))).2 (claimFinalVelocity defaultParams [("A", agC4)] agC4
            ((0 : ℝ), (0 : ℝ))).1 } : AgentR)
        = { agC4 with velocity := ((0 : ℝ), (0 : ℝ)) } := by
      rw [hcfv, if_pos rfl, smul_pair_zero, Prod.mk_zero_zero, add_zero]
    show lookupA (claimMotionStep defaultParams [("A", agC4)] ("A", ((0 : ℝ), (0 : ℝ)))) "A"
        = some { agC4 with velocity := ((0 : ℝ), (0 : ℝ)) }
    unfold claimMotionStep
    split
    · rename_i hl2
      exact absurd (rfl.trans hl2 : some agC4 = none) (by simp)
    · rename_i ag hl2
      have h3 : some agC4 = some ag := hl2
      injection h3 with h4
      subst h4
      rw [hag]
      rfl
  · intro h
    have := congrArg AgentR.velocity h
    have h1 := congrArg Prod.fst this
    norm_num [agC4, mkAgent] at h1

/-- Claim C4 (amended): the per-entry motion update equals the amended
specification step — beyond `formation_tolerance` all four steps run, with
`desired = max_speed · normalize(direction)`, the avoidance sum added, the
`clipVel` cap applied and velocity, position (`Δt = 1/update_frequency`)
and heading (`atan2` of the new velocity, unconditionally) written back,
while an agent within tolerance is left entirely unchanged — and the whole
tick is the fold of that step over the assignment map. -/
theorem motion_step_matches_amended_spec :
    (∀ (ps : CoordinationParams) (s : List (String × AgentR)) (e : String × Vec),
      motionStep ps s e = amendedMotionStep ps s e)
      ∧ ∀ (ps : CoordinationParams) (assigns : List (String × Vec))
          (s : List (String × AgentR)),
          execute_formation_transition ps assigns s
            = assigns.foldl (amendedMotionStep ps) s := by
  have hv : ∀ (ps : CoordinationParams) (s : List (String × AgentR))
      (ag : AgentR) (t : Vec),
      motionFinalVelocity ps s ag t = amendedFinalVelocity ps s ag t := by
    intro ps s ag t
    unfold motionFinalVelocity amendedFinalVelocity normalizeV
    rw [smul_smul]
  have hstep : ∀ ps s e, motionStep ps s e = amendedMotionStep ps s e := by
    intro ps s e
    unfold motionStep amendedMotionStep
    simp only [hv]
  refine ⟨hstep, ?_⟩
  intro ps assigns
  induction assigns with
  | nil => intro s; rfl
  | cons e rest ih =>
    intro s
    show execute_formation_transition ps rest (motionStep ps s e)
      = rest.foldl (amendedMotionStep ps) (amendedMotionStep ps s e)
    rw [← hstep, ih]

theorem norm2_axis (x : ℝ) : norm2 (x, (0 : ℝ)) = |x| := by
  show Real.sqrt (x ^ 2 + (0 : ℝ) ^ 2) = |x|
  rw [show x ^ 2 + (0 : ℝ) ^ 2 = x ^ 2 by ring, Real.sqrt_sq_eq_abs]

theorem avoidance_single_eval (a d : ℝ) (hd : 0 < d) (hda : d < a) :
    calculate_collision_avoidance a probeAgent [probeOther d]
      = (-((a - d) / d), (0 : ℝ)) := by
  have hdne : d ≠ 0 := ne_of_gt hd
  have hrel : probeAgent.position - (probeOther d).position = ((-d : ℝ), (0 : ℝ)) := by
    simp [probeAgent, probeOther, mkAgent, Prod.mk_sub_mk]
  have hn : norm2 (probeAgent.position - (probeOther d).position) = d := by
    rw [hrel, norm2_axis, abs_neg, abs_of_pos hd]
  unfold calculate_collision_avoidance
  simp only [List.foldl_cons, List.foldl_nil]
  rw [if_neg (show ¬ (probeOther d).id = probeAgent.id by
    simp [probeOther, probeAgent, mkAgent])]
  rw [hn, hrel, if_pos hda, if_pos hd]
  rw [Prod.smul_mk, Prod.mk_add_mk]
  simp only [smul_eq_mul, Prod.mk.injEq]
  constructor
  · field_simp
    ring
  · ring

/-- Claim C7: a neighboring agent at distance exactly
`collision_avoidance_distance` contributes the zero vector to the
collision-avoidance force, and for two agents strictly inside that range
the magnitude of the repulsive contribution, `(avoid − d)/d`, grows
strictly as the distance shrinks toward zero. -/
theorem collision_avoidance_boundary_monotone :
    (∀ (aDist : ℝ) (agent other : AgentR), other.id ≠ agent.id →
      norm2 (agent.position - other.position) = aDist →
      calculate_collision_avoidance aDist agent [other] = ((0 : ℝ), (0 : ℝ)))
      ∧ ∀ (aDist d₁ d₂ : ℝ), 0 < d₂ → d₂ < d₁ → d₁ < aDist →
        norm2 (calculate_collision_avoidance aDist probeAgent [probeOther d₁])
          < norm2 (calculate_collision_avoidance aDist probeAgent [probeOther d₂]) := by
  constructor
  · intro aDist agent other hid hdist
    unfold calculate_collision_avoidance
    simp only [List.foldl_cons, List.foldl_nil]
    rw [if_neg hid, hdist, if_neg (lt_irrefl aDist)]
  · intro a d₁ d₂ h2 h21 h1a
    have h2a : d₂ < a := h21.trans h1a
    have h1 : 0 < d₁ := h2.trans h21
    rw [avoidance_single_eval a d₁ h1 h1a, avoidance_single_eval a d₂ h2 h2a,
      norm2_axis, norm2_axis, abs_neg, abs_neg,
      abs_of_nonneg (div_nonneg (by linarith) h1.le),
      abs_of_nonneg (div_nonneg (by linarith) h2.le),
      div_lt_div_iff₀ h1 h2]
    nlinarith

/-- Witness for C7: the boundary case at distance exactly 5 and the
monotonicity between distances 2 and 1 under `avoid = 5`. -/
theorem collision_avoidance_boundary_monotone_witness :
    ((probeOther 5).id ≠ probeAgent.id
      ∧ norm2 (probeAgent.position - (probeOther 5).position) = 5
      ∧ calculate_collision_avoidance 5 probeAgent [probeOther 5] = ((0 : ℝ), (0 : ℝ)))
      ∧ ((0 : ℝ) < 1 ∧ (1 : ℝ) < 2 ∧ (2 : ℝ) < 5
        ∧ norm2 (calculate_collision_avoidance 5 probeAgent [probeOther 2])
            < norm2 (calculate_collision_avoidance 5 probeAgent [probeOther 1])) := by
  have hid : (probeOther 5).id ≠ probeAgent.id := by
    simp [probeOther, probeAgent, mkAgent]
  have hd : norm2 (probeAgent.position - (probeOther 5).position) = 5 := by
    have hrel : probeAgent.position - (probeOther (5 : ℝ)).position
        = ((-5 : ℝ), (0 : ℝ)) := by
      simp [probeAgent, probeOther, mkAgent, Prod.mk_sub_mk]
    rw [hrel, norm2_axis]
    norm_num
  exact ⟨⟨hid, hd, collision_avoidance_boundary_monotone.1 5 probeAgent (probeOther 5) hid hd⟩,
    by norm_num, by norm_num, by norm_num,
    collision_avoidance_boundary_monotone.2 5 2 1 (by norm_num) (by norm_num) (by norm_num)⟩

theorem wedge_formation_getD (center : Vec) (count : ℕ) (spacing heading : ℝ)
    (i : ℕ) (h1 : 1 ≤ i) (h2 : i < count) :
    (wedge_formation center count spacing heading).getD i ((0 : ℝ), (0 : ℝ))
      = center + ((-((((i + 1) / 2 : ℕ)) : ℝ)) * spacing * Real.cos heading,
          (if i % 2 = 1 then (1 : ℝ) else -1) * ((((i + 1) / 2 : ℕ)) : ℝ) * spacing *
            0.7 * Real.sin (heading + Real.pi / 2)) := by
  obtain ⟨j, rfl⟩ : ∃ j, i = j + 1 := ⟨i - 1, by omega⟩
  unfold wedge_formation
  rw [List.getD_cons_succ, List.getD_eq_getElem?_getD, List.getElem?_map,
    List.getElem?_range' 1 1 (show j < count - 1 by omega)]
  rw [show 1 + 1 * j = j + 1 by omega]
  rfl

/-- Claim C8 (corrected), counterexample at `heading = π/2`: the code puts
the second wedge agent exactly at the center, while the geometry the claim
describes (rank·spacing backward along the heading axis plus
±rank·spacing·0.7 lateral) puts it at `(-7, -10)` from a center of
`(0, 0)` with `spacing = 10`. -/
theorem wedge_heading_counterexample :
    (wedge_formation ((0 : ℝ), (0 : ℝ)) 2 10 (Real.pi / 2)).getD 1 ((0 : ℝ), (0 : ℝ))
        = ((0 : ℝ), (0 : ℝ))
      ∧ ((0 : ℝ), (0 : ℝ)) + claimWedgeOffset 1 1 10 (Real.pi / 2)
        = ((-7 : ℝ), (-10 : ℝ))
      ∧ (((0 : ℝ), (0 : ℝ)) : Vec) ≠ ((-7 : ℝ), (-10 : ℝ)) := by
  refine ⟨?_, ?_, ?_⟩
  · rw [wedge_formation_getD _ 2 _ _ 1 (by norm_num) (by norm_num)]
    rw [Real.sin_add_pi_div_two, Real.cos_pi_div_two]
    norm_num [Prod.mk_add_mk]
  · unfold claimWedgeOffset
    rw [Real.cos_add_pi_div_two, Real.sin_add_pi_div_two, Real.cos_pi_div_two,
      Real.sin_pi_div_two]
    norm_num [Prod.smul_mk, Prod.mk_add_mk, smul_eq_mul]
  · intro h
    rw [Prod.mk.injEq] at h
    norm_num at h

/-- Claim C8 (amended): the first wedge position is always `center`; and
whenever `sin(heading) = 0` (in particular for `heading = 0`) the agent at
index `i ≥ 1` sits at `center` plus the claimed offset — rank
`(i+1)/2`·spacing backward along the heading axis combined with
`±rank·spacing·0.7` along the lateral (`heading + π/2`) axis, the side
alternating with `i`.  (For general heading the code drops the `sin`
components of that geometry.) -/
theorem wedge_formation_amended :
    (∀ (center : Vec) (count : ℕ) (spacing heading : ℝ),
      (wedge_formation center count spacing heading).getD 0 ((0 : ℝ), (0 : ℝ)) = center)
      ∧ ∀ (center : Vec) (count : ℕ) (spacing heading : ℝ) (i : ℕ),
          Real.sin heading = 0 → 1 ≤ i → i < count →
          (wedge_formation center count spacing heading).getD i ((0 : ℝ), (0 : ℝ))
            = center + claimWedgeOffset ((((i + 1) / 2 : ℕ)) : ℝ)
                (if i % 2 = 1 then (1 : ℝ) else -1) spacing heading := by
  constructor
  · intro center count spacing heading
    rfl
  · intro center count spacing heading i hsin h1 h2
    rw [wedge_formation_getD center count spacing heading i h1 h2]
    congr 1
    unfold claimWedgeOffset
    rw [Real.cos_add_pi_div_two, Real.sin_add_pi_div_two, hsin]
    rw [Prod.smul_mk, Prod.smul_mk, Prod.mk_add_mk]
    simp only [smul_eq_mul, Prod.mk.injEq]
    constructor
    · ring
    · ring

/-- Witness for C8 at `heading = 0`, three agents, `i = 1`. -/
theorem wedge_formation_amended_witness :
    Real.sin 0 = 0 ∧ 1 ≤ 1 ∧ 1 < 3
      ∧ (wedge_formation ((0 : ℝ), (0 : ℝ)) 3 10 0).getD 1 ((0 : ℝ), (0 : ℝ))
          = ((0 : ℝ), (0 : ℝ)) + claimWedgeOffset ((((1 + 1) / 2 : ℕ)) : ℝ)
              (if 1 % 2 = 1 then (1 : ℝ) else -1) 10 0 :=
  ⟨Real.sin_zero, le_refl 1, by norm_num,
    wedge_formation_amended.2 ((0 : ℝ), (0 : ℝ)) 3 10 0 1 Real.sin_zero (le_refl 1)
      (by norm_num)⟩

theorem length_insertByKey (key : AgentR → ℝ) (x : AgentR) (l : List AgentR) :
    (insertByKey key x l).length = l.length + 1 := by
  induction l with
  | nil => rfl
  | cons y ys ih =>
    unfold insertByKey
    by_cases h : key x ≤ key y
    · rw [if_pos h]
      rfl
    · rw [if_neg h, List.length_cons, ih, List.length_cons]

theorem length_sortByKey (key : AgentR → ℝ) (l : List AgentR) :
    (sortByKey key l).length = l.length := by
  induction l with
  | nil => rfl
  | cons x xs ih =>
    unfold sortByKey
    rw [length_insertByKey, ih, List.length_cons]

theorem mem_insertByKey (key : AgentR → ℝ) (x : AgentR) (l : List AgentR)
    (a : AgentR) : a ∈ insertByKey key x l ↔ a = x ∨ a ∈ l := by
  induction l with
  | nil => simp [insertByKey]
  | cons y ys ih =>
    unfold insertByKey
    by_cases h : key x ≤ key y
    · rw [if_pos h]
      simp [List.mem_cons]
    · rw [if_neg h]
      simp only [List.mem_cons, ih]
      tauto

theorem mem_sortByKey (key : AgentR → ℝ) (l : List AgentR) (a : AgentR) :
    a ∈ sortByKey key l ↔ a ∈ l := by
  induction l with
  | nil => simp [sortByKey]
  | cons x xs ih =>
    unfold sortByKey
    rw [mem_insertByKey, ih, List.mem_cons]

theorem argminIdx_lt : ∀ (l : List ℝ), l ≠ [] → argminIdx l < l.length
  | [], h => absurd rfl h
  | [_], _ => by simp [argminIdx]
  | x :: y :: ys, _ => by
    unfold argminIdx
    by_cases h : x ≤ (y :: ys).getD (argminIdx (y :: ys)) 0
    · rw [if_pos h]
      simp
    · rw [if_neg h]
      have hrec := argminIdx_lt (y :: ys) (by simp)
      simp only [List.length_cons] at hrec ⊢
      omega

theorem optimizeAssignGo_length : ∀ (ags : List AgentR) (avail : List Vec),
    (optimizeAssignGo ags avail).length = min ags.length avail.length
  | [], avail => by simp [optimizeAssignGo]
  | _ :: _, [] => by simp [optimizeAssignGo]
  | a :: rest, p :: avail => by
    unfold optimizeAssignGo
    have hlt : argminIdx ((p :: avail).map (fun t => norm2 (a.position - t)))
        < (p :: avail).length := by
      have h := argminIdx_lt ((p :: avail).map (fun t => norm2 (a.position - t)))
        (by simp)
      simpa using h
    rw [List.length_cons,
      optimizeAssignGo_length rest ((p :: avail).eraseIdx _),
      List.length_eraseIdx, if_pos hlt]
    simp only [List.length_cons]
    omega

theorem optimizeAssignGo_keys : ∀ (ags : List AgentR) (avail : List Vec)
    (q : String × Vec), q ∈ optimizeAssignGo ags avail → q.1 ∈ ags.map AgentR.id
  | [], _, _, h => by simp [optimizeAssignGo] at h
  | _ :: _, [], _, h => by simp [optimizeAssignGo] at h
  | a :: rest, p :: avail, q, h => by
    unfold optimizeAssignGo at h
    rw [List.map_cons]
    rcases List.mem_cons.mp h with h | h
    · rw [h]
      exact List.mem_cons_self _ _
    · exact List.mem_cons_of_mem _ (optimizeAssignGo_keys rest _ q h)

theorem insertByKey_const (key : AgentR → ℝ) (x : AgentR) (l : List AgentR) (k : ℝ)
    (hx : key x = k) (hl : ∀ a ∈ l, key a = k) : insertByKey key x l = x :: l := by
  cases l with
  | nil => rfl
  | cons y ys =>
    unfold insertByKey
    rw [if_pos]
    rw [hx, hl y (List.mem_cons_self y ys)]

theorem sortByKey_const (key : AgentR → ℝ) (l : List AgentR) (k : ℝ)
    (hl : ∀ a ∈ l, key a = k) : sortByKey key l = l := by
  induction l with
  | nil => rfl
  | cons x xs ih =>
    unfold sortByKey
    rw [ih (fun a ha => hl a (List.mem_cons_of_mem _ ha))]
    exact insertByKey_const key x xs k (hl x (List.mem_cons_self _ _))
      (fun a ha => hl a (List.mem_cons_of_mem _ ha))

theorem agB5_key : norm2 (agB5.position - centroid [((0 : ℝ), (0 : ℝ))]) = 1 := by
  have hc : centroid [((0 : ℝ), (0 : ℝ))] = ((0 : ℝ), (0 : ℝ)) := by
    unfold centroid
    norm_num
  have hrel : agB5.position - centroid [((0 : ℝ), (0 : ℝ))] = ((0 : ℝ), (1 : ℝ)) := by
    rw [hc]
    simp [agB5, mkAgent, Prod.mk_sub_mk]
  rw [hrel]
  show Real.sqrt ((0 : ℝ) ^ 2 + 1 ^ 2) = 1
  norm_num

theorem agA5_key : norm2 (agA5.position - centroid [((0 : ℝ), (0 : ℝ))]) = 1 := by
  have hc : centroid [((0 : ℝ), (0 : ℝ))] = ((0 : ℝ), (0 : ℝ)) := by
    unfold centroid
    norm_num
  have hrel : agA5.position - centroid [((0 : ℝ), (0 : ℝ))] = ((0 : ℝ), (-1 : ℝ)) := by
    rw [hc]
    simp [agA5, mkAgent, Prod.mk_sub_mk]
  rw [hrel]
  show Real.sqrt ((0 : ℝ) ^ 2 + (-1 : ℝ) ^ 2) = 1
  norm_num

/-- Claim C5 (corrected), counterexample to the id tie-break: agents `B`
then `A` (in that input order) both at distance 1 from the single target's
centroid.  The code's stable sort keeps `B` first and `B` claims the only
target; sorting with ties broken by agent id would let `A` claim it. -/
theorem assignment_tiebreak_counterexample :
    optimize_position_assignments [agB5, agA5] [((0 : ℝ), (0 : ℝ))]
        = [("B", ((0 : ℝ), (0 : ℝ)))]
      ∧ claimAssign [agB5, agA5] [((0 : ℝ), (0 : ℝ))]
        = [("A", ((0 : ℝ), (0 : ℝ)))]
      ∧ [(("B" : String), ((0 : ℝ), (0 : ℝ)))] ≠ [("A", ((0 : ℝ), (0 : ℝ)))] := by
  refine ⟨?_, ?_, ?_⟩
  · unfold optimize_position_assignments
    rw [sortByKey_const _ _ 1 ?_]
    · simp [optimizeAssignGo, argminIdx, agB5, agA5, mkAgent]
    · intro a ha
      rcases List.mem_cons.mp ha with h | h
      · rw [h]; exact agB5_key
      · rw [List.mem_singleton.mp h]; exact agA5_key
  · unfold claimAssign
    have hsort : sortByDistThenId
        (fun a => norm2 (a.position - centroid [((0 : ℝ), (0 : ℝ))])) [agB5, agA5]
        = [agA5, agB5] := by
      simp only [sortByDistThenId, insertByDistThenId]
      rw [if_neg]
      rw [agB5_key, agA5_key]
      intro hcon
      rcases hcon with h | ⟨_, h2⟩
      · exact absurd h (lt_irrefl 1)
      · have hfalse : idLt agB5.id agA5.id = false := rfl
        rw [hfalse] at h2
        exact Bool.false_ne_true h2
    rw [hsort]
    simp [optimizeAssignGo, argminIdx, agB5, agA5, mkAgent]
  · intro h
    have h1 : (("B" : String), ((0 : ℝ), (0 : ℝ))) = (("A" : String), ((0 : ℝ), (0 : ℝ))) := by
      injection h
    have h2 : ("B" : String) = "A" := congrArg Prod.fst h1
    exact absurd h2 (by decide)

/-- Claim C5 (amended): the greedy assignment sorts agents by ascending
distance to the target centroid with ties broken by the agents' input
order (Python's stable sort), not by agent id; each sorted agent claims
the currently nearest remaining target; surplus agents are excluded — the
returned map has `min(|agents|, |positions|)` entries and only input-agent
ids as keys; and the function is deterministic (it is a pure function of
its arguments).  In particular, when all agents are equidistant from the
centroid the sort is the identity and the greedy loop runs in input
order. -/
theorem assignment_amended_properties :
    (∀ (agents : List AgentR) (targets : List Vec),
      (optimize_position_assignments agents targets).length
        = min agents.length targets.length)
      ∧ (∀ (agents : List AgentR) (targets : List Vec) (q : String × Vec),
          q ∈ optimize_position_assignments agents targets
          → q.1 ∈ agents.map AgentR.id)
      ∧ ∀ (agents : List AgentR) (targets : List Vec) (k : ℝ),
          (∀ a ∈ agents, norm2 (a.position - centroid targets) = k) →
          optimize_position_assignments agents targets
            = optimizeAssignGo agents targets := by
  refine ⟨?_, ?_, ?_⟩
  · intro agents targets
    unfold optimize_position_assignments
    rw [optimizeAssignGo_length, length_sortByKey]
  · intro agents targets q hq
    unfold optimize_position_assignments at hq
    have hkey := optimizeAssignGo_keys _ _ q hq
    rcases List.mem_map.mp hkey with ⟨a, ha, hqa⟩
    exact List.mem_map.mpr ⟨a, (mem_sortByKey _ _ _).mp ha, hqa⟩
  · intro agents targets k hk
    unfold optimize_position_assignments
    rw [sortByKey_const _ _ k hk]

/-- Witness for C5: length, key-membership and the equal-distance identity
sort at the concrete two-agent, one-target input. -/
theorem assignment_amended_properties_witness :
    (optimize_position_assignments [agA5] [((0 : ℝ), (0 : ℝ))]).length
        = min [agA5].length [((0 : ℝ), (0 : ℝ))].length
      ∧ ((("A" : String), ((0 : ℝ), (0 : ℝ)))
            ∈ optimize_position_assignments [agA5] [((0 : ℝ), (0 : ℝ))]
          ∧ (("A" : String), ((0 : ℝ), (0 : ℝ))).1 ∈ [agA5].map AgentR.id)
      ∧ ((∀ a ∈ [agB5, agA5], norm2 (a.position - centroid [((0 : ℝ), (0 : ℝ))]) = 1)
          ∧ optimize_position_assignments [agB5, agA5] [((0 : ℝ), (0 : ℝ))]
            = optimizeAssignGo [agB5, agA5] [((0 : ℝ), (0 : ℝ))]) := by
  have hmem : (("A" : String), ((0 : ℝ), (0 : ℝ)))
      ∈ optimize_position_assignments [agA5] [((0 : ℝ), (0 : ℝ))] := by
    unfold optimize_position_assignments sortByKey insertByKey
    simp [optimizeAssignGo, argminIdx, agA5, mkAgent]
  have hk : ∀ a ∈ [agB5, agA5],
      norm2 (a.position - centroid [((0 : ℝ), (0 : ℝ))]) = 1 := by
    intro a ha
    rcases List.mem_cons.mp ha with h | h
    · rw [h]; exact agB5_key
    · rw [List.mem_singleton.mp h]; exact agA5_key
  exact ⟨assignment_amended_properties.1 [agA5] [((0 : ℝ), (0 : ℝ))],
    ⟨hmem, assignment_amended_properties.2.1 [agA5] [((0 : ℝ), (0 : ℝ))] _ hmem⟩,
    hk, assignment_amended_properties.2.2 [agB5, agA5] [((0 : ℝ), (0 : ℝ))] 1 hk⟩

theorem foldl_min_nonneg (p : Vec) : ∀ (l : List Vec) (init : ℝ), 0 ≤ init →
    0 ≤ l.foldl (fun m x => min m (norm2 (p - x))) init
  | [], _, h => h
  | _ :: xs, _, h => foldl_min_nonneg p xs _ (le_min h (norm2_nonneg _))

theorem minDistToTargets_nonneg (p : Vec) (ts : List Vec) :
    0 ≤ minDistToTargets p ts := by
  cases ts with
  | nil => exact le_refl 0
  | cons t rest =>
    unfold minDistToTargets
    exact foldl_min_nonneg p rest _ (norm2_nonneg _)

theorem missionTotalDistance_nonneg (agents : List (String × AgentR))
    (mission : MissionR) : 0 ≤ missionTotalDistance agents mission := by
  unfold missionTotalDistance
  apply List.sum_nonneg
  intro x hx
  rcases List.mem_filterMap.mp hx with ⟨aid, _, hmap⟩
  rcases Option.map_eq_some'.mp hmap with ⟨ag, _, hfx⟩
  rw [← hfx]
  exact minDistToTargets_nonneg _ _

/-- Claim C9: `_update_mission_progress` is a no-op on an empty target
list; otherwise it computes `clamp(1 − meanDistance/100, 0, 1)` over the
selected agents — agents exactly at their nearest targets give progress 1,
a mean distance of at least 100 gives progress 0 (never negative). -/
theorem mission_progress_clamped :
    (∀ (agents : List (String × AgentR)) (mission : MissionR) (old : ℝ),
      mission.target_positions.isEmpty = true →
      update_mission_progress agents mission old = old)
      ∧ (∀ (agents : List (String × AgentR)) (mission : MissionR) (old : ℝ),
          mission.target_positions.isEmpty = false →
          (assign_agents_to_mission agents mission).isEmpty = false →
          update_mission_progress agents mission old
            = max 0 (min (1 - missionTotalDistance agents mission /
                (assign_agents_to_mission agents mission).length / 100) 1))
      ∧ (∀ (agents : List (String × AgentR)) (mission : MissionR) (old : ℝ),
          mission.target_positions.isEmpty = false →
          (assign_agents_to_mission agents mission).isEmpty = false →
          (∀ aid ∈ assign_agents_to_mission agents mission, ∃ ag,
            lookupA agents aid = some ag
              ∧ minDistToTargets ag.position mission.target_positions = 0) →
          update_mission_progress agents mission old = 1)
      ∧ ∀ (agents : List (String × AgentR)) (mission : MissionR) (old : ℝ),
          mission.target_positions.isEmpty = false →
          (assign_agents_to_mission agents mission).isEmpty = false →
          100 ≤ missionTotalDistance agents mission /
            (assign_agents_to_mission agents mission).length →
          update_mission_progress agents mission old = 0 := by
  have hne : ∀ {b : Bool}, b = false → ¬ b = true := by
    intro b hb hc
    rw [hb] at hc
    exact Bool.false_ne_true hc
  refine ⟨?_, ?_, ?_, ?_⟩
  · intro agents mission old h
    unfold update_mission_progress
    rw [if_pos h]
  · intro agents mission old h1 h2
    unfold update_mission_progress
    rw [if_neg (hne h1), if_neg (hne h2)]
    have hT : 0 ≤ missionTotalDistance agents mission /
        (assign_agents_to_mission agents mission).length / 100 := by
      apply div_nonneg _ (by norm_num)
      exact div_nonneg (missionTotalDistance_nonneg _ _) (Nat.cast_nonneg _)
    rw [min_eq_left (by linarith)]
  · intro agents mission old h1 h2 h3
    unfold update_mission_progress
    rw [if_neg (hne h1), if_neg (hne h2)]
    have hT : missionTotalDistance agents mission = 0 := by
      unfold missionTotalDistance
      apply List.sum_eq_zero
      intro x hx
      rcases List.mem_filterMap.mp hx with ⟨aid, haid, hmap⟩
      rcases Option.map_eq_some'.mp hmap with ⟨ag, hlook, hfx⟩
      rcases h3 aid haid with ⟨ag', hlook', hmin'⟩
      have hag : ag = ag' := by
        have := hlook.symm.trans hlook'
        injection this
      rw [← hfx, hag, hmin']
    rw [hT, zero_div, zero_div, sub_zero]
    exact max_eq_right (by norm_num)
  · intro agents mission old h1 h2 h3
    unfold update_mission_progress
    rw [if_neg (hne h1), if_neg (hne h2)]
    have : (1 : ℝ) ≤ missionTotalDistance agents mission /
        (assign_agents_to_mission agents mission).length / 100 := by
      linarith
    exact max_eq_left (by linarith)

/-- Witness for C9: a no-op on the empty-target mission; progress exactly 1
for the agent standing on the target; progress exactly 0 for the agent 200
units away; and the general clamp shape at the same concrete input. -/
theorem mission_progress_clamped_witness :
    (mEmpty.target_positions.isEmpty = true
      ∧ update_mission_progress [("A", agM)] mEmpty 0.42 = 0.42)
      ∧ (mW.target_positions.isEmpty = false
        ∧ (assign_agents_to_mission [("A", agM)] mW).isEmpty = false
        ∧ (∀ aid ∈ assign_agents_to_mission [("A", agM)] mW, ∃ ag,
            lookupA [("A", agM)] aid = some ag
              ∧ minDistToTargets ag.position mW.target_positions = 0)
        ∧ update_mission_progress [("A", agM)] mW 0.42 = 1
        ∧ update_mission_progress [("A", agM)] mW 0.42
            = max 0 (min (1 - missionTotalDistance [("A", agM)] mW /
                (assign_agents_to_mission [("A", agM)] mW).length / 100) 1))
      ∧ ((assign_agents_to_mission [("A", agFar)] mW).isEmpty = false
        ∧ 100 ≤ missionTotalDistance [("A", agFar)] mW /
            (assign_agents_to_mission [("A", agFar)] mW).length
        ∧ update_mission_progress [("A", agFar)] mW 0.42 = 0) := by
  have hmin0 : minDistToTargets agM.position mW.target_positions = 0 := by
    have hsub : agM.position - ((0 : ℝ), (0 : ℝ)) = ((0 : ℝ), (0 : ℝ)) := by
      simp [agM, mkAgent, Prod.mk_sub_mk]
    show norm2 (agM.position - ((0 : ℝ), (0 : ℝ))) = 0
    rw [hsub]
    show Real.sqrt ((0 : ℝ) ^ 2 + (0 : ℝ) ^ 2) = 0
    norm_num
  have hsel : ∀ aid ∈ assign_agents_to_mission [("A", agM)] mW, ∃ ag,
      lookupA [("A", agM)] aid = some ag
        ∧ minDistToTargets ag.position mW.target_positions = 0 := by
    intro aid ha
    have ha' : aid ∈ ["A"] := ha
    rw [List.mem_singleton.mp ha']
    exact ⟨agM, rfl, hmin0⟩
  have hminFar : minDistToTargets agFar.position mW.target_positions = 200 := by
    have hsub : agFar.position - ((0 : ℝ), (0 : ℝ)) = ((200 : ℝ), (0 : ℝ)) := by
      simp [agFar, mkAgent, Prod.mk_sub_mk]
    show norm2 (agFar.position - ((0 : ℝ), (0 : ℝ))) = 200
    rw [hsub, norm2_axis]
    norm_num
  have hTFar : missionTotalDistance [("A", agFar)] mW = 200 := by
    show minDistToTargets agFar.position mW.target_positions + 0 = 200
    rw [hminFar]
    norm_num
  have hquot : (100 : ℝ) ≤ missionTotalDistance [("A", agFar)] mW /
      (assign_agents_to_mission [("A", agFar)] mW).length := by
    rw [hTFar]
    show (100 : ℝ) ≤ 200 / ((["A"] : List String).length : ℝ)
    norm_num
  refine ⟨⟨rfl, mission_progress_clamped.1 [("A", agM)] mEmpty 0.42 rfl⟩,
    ⟨rfl, rfl, hsel,
      mission_progress_clamped.2.2.1 [("A", agM)] mW 0.42 rfl rfl hsel,
      mission_progress_clamped.2.1 [("A", agM)] mW 0.42 rfl rfl⟩,
    rfl, hquot,
    mission_progress_clamped.2.2.2 [("A", agFar)] mW 0.42 rfl rfl hquot⟩
